import Mathlib

/-!
Verification of the socket-nn client scripts (`src/test.py` and
`src/examples/client.py`).

The scripts serialize a numpy array with `np.save` into an in-memory buffer,
send the buffer over a TCP stream socket, read the response stream until the
peer closes the connection, deserialize it with `np.load`, and assert numeric
properties of the result.

Bytes are modelled as natural numbers, a byte buffer as `List Nat`, and the
stream of values returned by successive `recv` calls as a list of chunks
(`List (List Nat)`).  Floating-point array values are modelled as rationals,
and `np.allclose` by its documented tolerance formula with the default
tolerances.  Exceptions are modelled with `Except`.
-/

/-- Model of a numpy array as carried by the NPY serialization format:
a dtype descriptor (a byte string), a shape (a list of dimension sizes),
and the raw element bytes. -/
structure NDArray where
  dtype : List Nat
  shape : List Nat
  data : List Nat
  deriving DecidableEq, Repr

/-- Modelled from the spec: the numpy library's `np.save` (numpy is not part
of this repository) writes a self-describing binary encoding of the array's
dtype, shape, and raw element data.  We model it as a length-prefixed dtype
descriptor, a length-prefixed shape, followed by the element bytes. -/
def np_save (A : NDArray) : List Nat :=
  (A.dtype.length :: A.dtype) ++ (A.shape.length :: A.shape) ++ A.data

/-- Modelled from the spec: the numpy library's `np.load` (numpy is not part
of this repository) parses the self-describing encoding back into an array,
failing (raising, modelled as `none`) on a malformed buffer. -/
def np_load (buf : List Nat) : Option NDArray :=
  match buf with
  | [] => none
  | n :: rest =>
    if n ≤ rest.length then
      match rest.drop n with
      | [] => none
      | m :: rest2 =>
        if m ≤ rest2.length then
          some ⟨rest.take n, rest2.take m, rest2.drop m⟩
        else none
    else none

/-- Socket address: host and port, as in `("127.0.0.1", 8080)`. -/
structure Addr where
  host : String
  port : Nat
  deriving DecidableEq, Repr

/-- Observable socket operations performed by the scripts: connecting to an
address, `sendall` of a buffer, one `recv` call returning a chunk (an empty
chunk means end of stream), and closing the socket. -/
inductive SockEv where
  | connect (addr : Addr)
  | send (buf : List Nat)
  | recv (chunk : List Nat)
  | close
  deriving DecidableEq, Repr

/-- Embedding of `send_array(s, A)` from `src/test.py`: serialize `A` with
`np.save` into an in-memory buffer and `sendall` the whole buffer.  At the
trace level this is a single send event carrying the encoded buffer. -/
def send_array (A : NDArray) : List SockEv :=
  [SockEv.send (np_save A)]

/-- Embedding of the `while True` receive loop of `recv_array` from
`src/test.py`: each iteration calls `recv(1024)`; a non-empty chunk is
appended to the accumulating buffer `acc`, an empty chunk breaks the loop.
The incoming transport is modelled as the list of chunks successive `recv`
calls deliver; once the list is exhausted `recv` returns the empty chunk
(end of stream).  Returns the accumulated buffer and the recv events. -/
def recv_loop_tr : List (List Nat) → List Nat → List Nat × List SockEv
  | [], acc => (acc, [SockEv.recv []])
  | c :: cs, acc =>
    if c.isEmpty then (acc, [SockEv.recv c])
    else
      let r := recv_loop_tr cs (acc ++ c)
      (r.1, SockEv.recv c :: r.2)

/-- Embedding of `recv_array(s)` from `src/test.py`: run the receive loop
starting from an empty buffer, then decode the accumulated buffer with
`np.load`.  Returns the decoded array and the recv events. -/
def recv_array_tr (chunks : List (List Nat)) : Option NDArray × List SockEv :=
  let r := recv_loop_tr chunks []
  (np_load r.1, r.2)

/-- Embedding of `recv_array(s)` with the event log dropped: the array
obtained from the incoming chunk stream. -/
def recv_array (chunks : List (List Nat)) : Option NDArray :=
  (recv_array_tr chunks).1

/-- Embedding of `exchange(addr, A)` from `src/test.py`: inside a
`with socket.socket(...)` block, connect to `addr`, `send_array` the array,
`recv_array` the response, and (leaving the block) close the socket; the
decoded response is returned.  `chunks` are the response chunks the peer
delivers. -/
def exchange (addr : Addr) (A : NDArray) (chunks : List (List Nat)) :
    Option NDArray × List SockEv :=
  let r := recv_array_tr chunks
  (r.1, SockEv.connect addr :: send_array A ++ r.2 ++ [SockEv.close])

/-- The chunks actually accumulated by the receive loop: every chunk, in
arrival order, up to (excluding) the first empty one. -/
def deliveredChunks (chunks : List (List Nat)) : List (List Nat) :=
  chunks.takeWhile (fun c => !c.isEmpty)

/-- Fuel-indexed embedding of the same receive loop over a possibly infinite
incoming stream, for the termination analysis: `s n` is the chunk returned by
the `n`-th `recv(1024)` call.  `recvFuel s k i acc` runs at most `k` loop
iterations from receive index `i` with accumulated buffer `acc`; `none`
means the loop did not finish within the allotted iterations. -/
def recvFuel (s : Nat → List Nat) : Nat → Nat → List Nat → Option (List Nat)
  | 0, _, _ => none
  | k + 1, i, acc =>
    if s i = [] then some acc else recvFuel s k (i + 1) (acc ++ s i)

/-- Failure-aware embedding of `exchange(addr, A)`.  Each fallible step
(`connect`, `sendall`, the receive loop) is given its outcome as an `Except`
value; a raised exception anywhere aborts the remaining steps and propagates,
the code installing no handler.  A buffer `np.load` cannot decode raises as
well (`edecode`).  The `with socket.socket(...)` block closes the socket on
every exit path, so every trace ends with the close event. -/
def exchangeE {Err : Type} (edecode : Err) (addr : Addr) (A : NDArray)
    (cR sR : Except Err Unit) (rR : Except Err (List (List Nat))) :
    Except Err NDArray × List SockEv :=
  match cR with
  | Except.error e => (Except.error e, [SockEv.close])
  | Except.ok _ =>
    match sR with
    | Except.error e => (Except.error e, [SockEv.connect addr, SockEv.close])
    | Except.ok _ =>
      match rR with
      | Except.error e =>
        (Except.error e, SockEv.connect addr :: send_array A ++ [SockEv.close])
      | Except.ok cs =>
        let r := recv_array_tr cs
        (match r.1 with
         | none => Except.error edecode
         | some a => Except.ok a,
         SockEv.connect addr :: send_array A ++ r.2 ++ [SockEv.close])

/-- Values of a 2 by 2 floating-point matrix, modelled over the rationals. -/
abbrev Mat2 := Fin 2 → Fin 2 → ℚ

/-- Default relative tolerance of `np.allclose` (1e-5). -/
def qrtol : ℚ := 1 / 100000

/-- Default absolute tolerance of `np.allclose` (1e-8). -/
def qatol : ℚ := 1 / 100000000

/-- The matrix `np.eye(2)`. -/
def eye2 : Mat2 := fun i j => if i = j then 1 else 0

/-- The matrix `np.ones((2, 2))`. -/
def ones2 : Mat2 := fun _ _ => 1

/-- The matrix `1 - np.eye(2)`. -/
def compEye2 : Mat2 := fun i j => 1 - eye2 i j

/-- Elementwise matrix subtraction, as in the numpy expression `y - x`. -/
def matSub (a b : Mat2) : Mat2 := fun i j => a i j - b i j

/-- The `np.allclose(a, b)` predicate on 2 by 2 matrices: every entry
satisfies the documented closeness test with the default tolerances. -/
def allclose2 (a b : Mat2) : Prop :=
  ∀ i j, |a i j - b i j| ≤ qrtol * |b i j| + qatol

/-- Executable form of `np.allclose(a, b)` on 2 by 2 matrices. -/
def allcloseb (a b : Mat2) : Bool :=
  decide (∀ i j, |a i j - b i j| ≤ qrtol * |b i j| + qatol)

/-- Embedding of `main()` from `src/test.py`.  The external server reached
through `exchange` is abstracted as the function `server` from the sent
array to the returned array, and the draw of `np.random.randn(2, 2)` as the
parameter `r`.  The three assertions run in order; the run succeeds iff all
hold. -/
def mainRun (server : Mat2 → Mat2) (r : Mat2) : Bool :=
  allcloseb (matSub (server eye2) eye2) ones2 &&
  (allcloseb (matSub (server compEye2) compEye2) ones2 &&
    allcloseb (matSub (server r) r) ones2)

/-- Failure-aware embedding of `main()` from `src/test.py`: each `exchange`
call may raise (the server oracle returns an `Except`), and a failed
`assert` raises `eassert`.  No handler is installed, so the first failure
propagates and aborts the remaining steps. -/
def mainE {Err : Type} (eassert : Err) (server : Mat2 → Except Err Mat2)
    (r : Mat2) : Except Err Unit :=
  match server eye2 with
  | Except.error e => Except.error e
  | Except.ok y =>
    if allcloseb (matSub y eye2) ones2 then
      match server compEye2 with
      | Except.error e => Except.error e
      | Except.ok w =>
        if allcloseb (matSub w compEye2) ones2 then
          match server r with
          | Except.error e => Except.error e
          | Except.ok w2 =>
            if allcloseb (matSub w2 r) ones2 then Except.ok ()
            else Except.error eassert
        else Except.error eassert
    else Except.error eassert

/-- Shaped floating-point array, modelled over the rationals, for the
client-script assertions on shape and values. -/
structure QArr where
  shape : List Nat
  data : List ℚ

/-- The `np.allclose(y, 0.)` test: every element of `y` is within tolerance
of zero. -/
def qallZerob (y : QArr) : Bool :=
  y.data.all fun v => decide (|v - 0| ≤ qrtol * |(0 : ℚ)| + qatol)

/-- Embedding of `main()` from `src/examples/client.py`: the random
`np.random.randn(1, 32)` draw is the element list `d` of a shape `[1, 32]`
array sent through `exchange` (abstracted as the oracle `server`); the run
asserts the returned shape is `(1, 10)` and that the result is allclose to
zero. -/
def clientMainRun (server : QArr → QArr) (d : List ℚ) : Bool :=
  let y := server ⟨[1, 32], d⟩
  decide (y.shape = [1, 10]) && qallZerob y

/-- Failure-aware embedding of `main()` from `src/examples/client.py`: the
`exchange` call may raise (the server oracle returns an `Except`), and each
of the two failed `assert` statements raises `eassert`.  No handler is
installed, so the first failure propagates and aborts the remaining
steps. -/
def clientMainE {Err : Type} (eassert : Err)
    (server : QArr → Except Err QArr) (d : List ℚ) : Except Err Unit :=
  match server ⟨[1, 32], d⟩ with
  | Except.error e => Except.error e
  | Except.ok y =>
    if y.shape = [1, 10] then
      if qallZerob y then Except.ok () else Except.error eassert
    else Except.error eassert

/-- Embedding of `send_array(s, A)` from `src/examples/client.py` (the
second copy of the function, translated from that file). -/
def client_send_array (A : NDArray) : List SockEv :=
  [SockEv.send (np_save A)]

/-- Embedding of the receive loop of `recv_array` from
`src/examples/client.py` (the second copy, translated from that file). -/
def client_recv_loop_tr : List (List Nat) → List Nat → List Nat × List SockEv
  | [], acc => (acc, [SockEv.recv []])
  | c :: cs, acc =>
    if c.isEmpty then (acc, [SockEv.recv c])
    else
      let r := client_recv_loop_tr cs (acc ++ c)
      (r.1, SockEv.recv c :: r.2)

/-- Embedding of `recv_array(s)` from `src/examples/client.py` (the second
copy, translated from that file). -/
def client_recv_array_tr (chunks : List (List Nat)) :
    Option NDArray × List SockEv :=
  let r := client_recv_loop_tr chunks []
  (np_load r.1, r.2)

/-- Embedding of `exchange(addr, A)` from `src/examples/client.py` (the
second copy, translated from that file). -/
def client_exchange (addr : Addr) (A : NDArray) (chunks : List (List Nat)) :
    Option NDArray × List SockEv :=
  let r := client_recv_array_tr chunks
  (r.1, SockEv.connect addr :: client_send_array A ++ r.2 ++ [SockEv.close])

/-- C1: decoding with the receive-side format (`np.load`) the exact byte
buffer that the send side produces (`np.save`) for any array A yields A
back: encode followed by decode is the identity, since both directions use
the same serialization format. -/
theorem np_load_np_save (A : NDArray) : np_load (np_save A) = some A := by
  simp only [np_save, np_load, List.cons_append, List.length_cons]
  rw [List.append_assoc]
  rw [if_pos (by simp)]
  rw [List.drop_left]
  simp only [List.take_left, List.cons_append]
  rw [if_pos (by simp)]
  simp [List.take_left, List.drop_left]

theorem recv_loop_tr_eq (chunks : List (List Nat)) (acc : List Nat) :
    recv_loop_tr chunks acc =
      (acc ++ (deliveredChunks chunks).flatten,
       (deliveredChunks chunks).map SockEv.recv ++ [SockEv.recv []]) := by
  induction chunks generalizing acc with
  | nil => simp [recv_loop_tr, deliveredChunks]
  | cons c cs ih =>
    by_cases hc : c.isEmpty
    · have hc' : c = [] := List.isEmpty_iff.mp hc
      simp [recv_loop_tr, deliveredChunks, hc, hc', List.takeWhile_cons]
    · simp [recv_loop_tr, deliveredChunks, hc, List.takeWhile_cons, ih]

theorem recv_array_eq_flatten (chunks : List (List Nat)) :
    recv_array chunks = np_load (deliveredChunks chunks).flatten := by
  simp [recv_array, recv_array_tr, recv_loop_tr_eq]

/-- C3: for every incoming byte stream, `recv_array` accumulates every
received chunk, in arrival order, into one buffer until a receive returns no
bytes, and then returns the array obtained by decoding that whole
accumulated buffer. -/
theorem recv_array_spec (chunks : List (List Nat)) :
    recv_array chunks = np_load (deliveredChunks chunks).flatten :=
  recv_array_eq_flatten chunks

/-- C2: `exchange addr A chunks` performs exactly the sequence: connect to
`addr`, send the full `np.save` encoding of `A`, perform the receive loop
(one recv event per delivered chunk, then the empty recv that ends the
stream), close the socket; and it returns the decoded response array
unchanged. -/
theorem exchange_spec (addr : Addr) (A : NDArray) (chunks : List (List Nat)) :
    exchange addr A chunks =
      (np_load (deliveredChunks chunks).flatten,
       SockEv.connect addr :: SockEv.send (np_save A) ::
         ((deliveredChunks chunks).map SockEv.recv ++ [SockEv.recv []]) ++
         [SockEv.close]) := by
  simp [exchange, send_array, recv_array_tr, recv_loop_tr_eq]

theorem deliveredChunks_of_nonempty (chunks : List (List Nat))
    (h : ∀ c ∈ chunks, c ≠ []) : deliveredChunks chunks = chunks := by
  induction chunks with
  | nil => rfl
  | cons c cs ih =>
    have hc : c ≠ [] := h c (List.mem_cons_self c cs)
    have : ¬ c.isEmpty := by simpa [List.isEmpty_iff] using hc
    have hcs : deliveredChunks cs = cs := ih fun d hd => h d (List.mem_cons_of_mem c hd)
    simp only [deliveredChunks, List.takeWhile_cons, this, Bool.not_false, if_true]
    simpa [deliveredChunks] using hcs

/-- C10: the result of `recv_array` depends only on the total sequence of
bytes delivered by the stream, not on how the transport splits them into
chunks: two runs whose non-empty received chunks concatenate to the same
byte sequence return equal arrays, regardless of chunk boundaries. -/
theorem recv_array_chunking_invariant (cs1 cs2 : List (List Nat))
    (h1 : ∀ c ∈ cs1, c ≠ []) (h2 : ∀ c ∈ cs2, c ≠ [])
    (hjoin : cs1.flatten = cs2.flatten) :
    recv_array cs1 = recv_array cs2 := by
  rw [recv_array_eq_flatten, recv_array_eq_flatten,
    deliveredChunks_of_nonempty cs1 h1, deliveredChunks_of_nonempty cs2 h2,
    hjoin]

/-- Witness for C10: the buffer `[2, 7, 0, 1, 2, 3]` split as two chunks and
as three chunks decodes to the same result. -/
theorem recv_array_chunking_invariant_witness :
    (∀ c ∈ [[2, 7], [0, 1, 2, 3]], c ≠ []) ∧
    (∀ c ∈ [[2], [7, 0, 1], [2, 3]], c ≠ []) ∧
    ([[2, 7], [0, 1, 2, 3]] : List (List Nat)).flatten =
      ([[2], [7, 0, 1], [2, 3]] : List (List Nat)).flatten ∧
    recv_array [[2, 7], [0, 1, 2, 3]] = recv_array [[2], [7, 0, 1], [2, 3]] :=
  ⟨by decide, by decide, by decide,
    recv_array_chunking_invariant [[2, 7], [0, 1, 2, 3]] [[2], [7, 0, 1], [2, 3]]
      (by decide) (by decide) (by decide)⟩

theorem recvFuel_some_imp (s : Nat → List Nat) :
    ∀ k i acc r, recvFuel s k i acc = some r → ∃ n, s n = [] := by
  intro k
  induction k with
  | zero => intro i acc r h; simp [recvFuel] at h
  | succ k ih =>
    intro i acc r h
    by_cases hi : s i = []
    · exact ⟨i, hi⟩
    · rw [recvFuel, if_neg hi] at h
      exact ih (i + 1) (acc ++ s i) r h

theorem recvFuel_of_empty (s : Nat → List Nat) :
    ∀ d i acc, s (i + d) = [] → ∃ r, recvFuel s (d + 1) i acc = some r := by
  intro d
  induction d with
  | zero =>
    intro i acc h
    have h0 : s i = [] := by simpa using h
    exact ⟨acc, by simp [recvFuel, h0]⟩
  | succ d ih =>
    intro i acc h
    by_cases hi : s i = []
    · exact ⟨acc, by rw [recvFuel, if_pos hi]⟩
    · have h' : s ((i + 1) + d) = [] := by
        rw [show (i + 1) + d = i + (d + 1) by omega]; exact h
      obtain ⟨r, hr⟩ := ih (i + 1) (acc ++ s i) h'
      exact ⟨r, by rw [recvFuel, if_neg hi]; exact hr⟩

/-- C8: the receive loop of `recv_array` terminates if and only if some
`recv` call eventually returns an empty chunk (the peer closes the
connection): starting from index 0 with an empty buffer, some finite number
of iterations completes the loop exactly when `s n = []` for some `n`; there
is no timeout or other exit from the loop. -/
theorem recv_loop_terminates_iff (s : Nat → List Nat) :
    (∃ k r, recvFuel s k 0 [] = some r) ↔ (∃ n, s n = []) := by
  constructor
  · rintro ⟨k, r, hk⟩
    exact recvFuel_some_imp s k 0 [] r hk
  · rintro ⟨n, hn⟩
    obtain ⟨r, hr⟩ := recvFuel_of_empty s n 0 [] (by simpa using hn)
    exact ⟨n + 1, r, hr⟩

theorem trace_last_close (l : List SockEv) :
    (l ++ [SockEv.close]).getLast? = some SockEv.close := by
  rw [List.getLast?_append_cons]; rfl

/-- C7: in every call to `exchange`, the socket is opened and closed within
a single `with` block, so on every exit path of the failure-aware model —
connect raising, send raising, the receive loop raising, decoding failing,
or full success — the event trace ends with the close event: the connection
is never left open after `exchange` returns or fails. -/
theorem exchangeE_closes_socket {Err : Type} (edecode : Err) (addr : Addr)
    (A : NDArray) (cR sR : Except Err Unit)
    (rR : Except Err (List (List Nat))) :
    ((exchangeE edecode addr A cR sR rR).2).getLast? = some SockEv.close := by
  cases cR with
  | error e => exact trace_last_close []
  | ok u =>
    cases sR with
    | error e => exact trace_last_close [SockEv.connect addr]
    | ok u2 =>
      cases rR with
      | error e =>
        exact trace_last_close (SockEv.connect addr :: send_array A)
      | ok cs =>
        show (SockEv.connect addr :: send_array A ++
            (recv_array_tr cs).2 ++ [SockEv.close]).getLast? =
          some SockEv.close
        exact trace_last_close _

/-- C6: neither script catches any exception.  In the failure-aware model:
the exchange result is an error exactly when the first failing step raised
it — a connect failure, a send failure, a receive failure, or an
undecodable response; the test-script `main` returns an error exactly when
the first failure anywhere inside it raised it — any of the three
`exchange` calls failing (propagating that error unchanged) or any of the
three assertions failing (raising `eassert`); and likewise the
client-script `main` for its `exchange` call and its two assertions.
There is no retry and no recovery path. -/
theorem errors_propagate_uncaught {Err : Type} (edecode : Err) (addr : Addr)
    (A : NDArray) (cR sR : Except Err Unit)
    (rR : Except Err (List (List Nat))) (e eassert : Err)
    (server : Mat2 → Except Err Mat2) (r : Mat2)
    (cserver : QArr → Except Err QArr) (d : List ℚ) :
    ((exchangeE edecode addr A cR sR rR).1 = Except.error e ↔
      cR = Except.error e ∨
      (cR = Except.ok () ∧ sR = Except.error e) ∨
      (cR = Except.ok () ∧ sR = Except.ok () ∧ rR = Except.error e) ∨
      (cR = Except.ok () ∧ sR = Except.ok () ∧
        ∃ cs, rR = Except.ok cs ∧ recv_array cs = none ∧ e = edecode)) ∧
    (mainE eassert server r = Except.error e ↔
      server eye2 = Except.error e ∨
      ∃ y1, server eye2 = Except.ok y1 ∧
        ((allcloseb (matSub y1 eye2) ones2 = false ∧ e = eassert) ∨
         (allcloseb (matSub y1 eye2) ones2 = true ∧
           (server compEye2 = Except.error e ∨
            ∃ y2, server compEye2 = Except.ok y2 ∧
              ((allcloseb (matSub y2 compEye2) ones2 = false ∧ e = eassert) ∨
               (allcloseb (matSub y2 compEye2) ones2 = true ∧
                 (server r = Except.error e ∨
                  ∃ y3, server r = Except.ok y3 ∧
                    allcloseb (matSub y3 r) ones2 = false ∧
                    e = eassert))))))) ∧
    (clientMainE eassert cserver d = Except.error e ↔
      cserver ⟨[1, 32], d⟩ = Except.error e ∨
      ∃ y, cserver ⟨[1, 32], d⟩ = Except.ok y ∧
        ((y.shape ≠ [1, 10] ∧ e = eassert) ∨
         (y.shape = [1, 10] ∧ qallZerob y = false ∧ e = eassert))) := by
  refine ⟨?_, ?_, ?_⟩
  · cases cR with
    | error e0 => simp [exchangeE]
    | ok u =>
      cases u
      cases sR with
      | error e0 => simp [exchangeE]
      | ok u2 =>
        cases u2
        cases rR with
        | error e0 => simp [exchangeE]
        | ok cs =>
          rcases h : (recv_array_tr cs).1 with _ | a
          · simp [exchangeE, recv_array, h, eq_comm]
          · simp [exchangeE, recv_array, h]
  · rcases h1 : server eye2 with e1 | y1
    · simp [mainE, h1]
    · by_cases hb1 : allcloseb (matSub y1 eye2) ones2 = true
      · rcases h2 : server compEye2 with e2 | y2
        · simp [mainE, h1, hb1, h2]
        · by_cases hb2 : allcloseb (matSub y2 compEye2) ones2 = true
          · rcases h3 : server r with e3 | y3
            · simp [mainE, h1, hb1, h2, hb2, h3]
            · by_cases hb3 : allcloseb (matSub y3 r) ones2 = true
              · simp [mainE, h1, hb1, h2, hb2, h3, hb3]
              · rw [Bool.not_eq_true] at hb3
                simp [mainE, h1, hb1, h2, hb2, h3, hb3, @eq_comm _ eassert e]
          · rw [Bool.not_eq_true] at hb2
            simp [mainE, h1, hb1, h2, hb2, @eq_comm _ eassert e]
      · rw [Bool.not_eq_true] at hb1
        simp [mainE, h1, hb1, @eq_comm _ eassert e]
  · rcases h : cserver ⟨[1, 32], d⟩ with e0 | y
    · simp [clientMainE, h]
    · by_cases hs : y.shape = [1, 10]
      · by_cases hz : qallZerob y = true
        · simp [clientMainE, h, hs, hz]
        · rw [Bool.not_eq_true] at hz
          simp [clientMainE, h, hs, hz, @eq_comm _ eassert e]
      · simp [clientMainE, h, hs, @eq_comm _ eassert e]

/-- C4: the test-script `main` succeeds exactly when, for each of the three
exchanged inputs — the 2 by 2 identity, its complement `1 - eye(2)`, and
the random draw `r` — the returned array `w` satisfies
`allclose(w - z, ones((2, 2)))`: the response equals the input plus the
all-ones matrix, up to the allclose tolerances. -/
theorem main_spec (server : Mat2 → Mat2) (r : Mat2) :
    mainRun server r = true ↔
      (allclose2 (matSub (server eye2) eye2) ones2 ∧
       allclose2 (matSub (server compEye2) compEye2) ones2 ∧
       allclose2 (matSub (server r) r) ones2) := by
  simp [mainRun, allcloseb, allclose2, Bool.and_eq_true]

/-- C5: the client-script `main` sends one random shape `[1, 32]` vector and
succeeds exactly when the returned array has shape `[1, 10]` and every
element is approximately zero (within the allclose absolute tolerance). -/
theorem client_main_spec (server : QArr → QArr) (d : List ℚ) :
    clientMainRun server d = true ↔
      ((server ⟨[1, 32], d⟩).shape = [1, 10] ∧
       ∀ v ∈ (server ⟨[1, 32], d⟩).data, |v| ≤ qatol) := by
  simp [clientMainRun, qallZerob, Bool.and_eq_true, List.all_eq_true]

theorem client_recv_loop_tr_eq_loop (cs : List (List Nat)) (acc : List Nat) :
    client_recv_loop_tr cs acc = recv_loop_tr cs acc := by
  induction cs generalizing acc with
  | nil => rfl
  | cons c cs ih =>
    by_cases hc : c.isEmpty <;>
      simp [client_recv_loop_tr, recv_loop_tr, hc, ih]

/-- C9: the shared core of the two scripts is equivalent: `send_array`,
`recv_array`, and `exchange` as written in `src/test.py` and as written in
`src/examples/client.py` perform the same operations and return the same
result on every input; the scripts differ only in their main drivers. -/
theorem shared_core_equivalent (addr : Addr) (A : NDArray)
    (cs : List (List Nat)) :
    client_send_array A = send_array A ∧
    client_recv_array_tr cs = recv_array_tr cs ∧
    client_exchange addr A cs = exchange addr A cs := by
  refine ⟨rfl, ?_, ?_⟩
  · simp [client_recv_array_tr, recv_array_tr, client_recv_loop_tr_eq_loop]
  · simp [client_exchange, exchange, client_recv_array_tr, recv_array_tr,
      client_send_array, send_array, client_recv_loop_tr_eq_loop]
